import Mathlib

/-!
Verification development for the haven-game-credits storefront.

The TypeScript source is shallowly embedded: prices are rationals (`ℚ`),
TS `number` quantities are `Nat`, optional fields are `Option`, and
`Record<string, string>` objects are modelled by their lookup function.
Each definition mirrors one function of the source; theorems settle the
frozen specification claims against these definitions.
-/

set_option maxHeartbeats 1000000

namespace HavenGC

/-- Model of a TS `Record<string, string>` by its lookup behaviour. -/
abbrev Rcd : Type := String → Option String

/-- The empty object literal. -/
def emptyRcd : Rcd := fun _ => none

/-- JavaScript property assignment `r[k] = v`. -/
def rcdSet (r : Rcd) (k v : String) : Rcd := fun k' => if k' = k then some v else r k'

/-- Applying a list of assignments in order on top of `r`
(models `{...r, ...built}` where `built` was filled by successive assignments). -/
def mergeAssign (r : Rcd) (l : List (String × String)) : Rcd :=
  l.foldl (fun acc p => rcdSet acc p.1 p.2) r

/-- Lookup in an assignment list, later assignments winning (JS object semantics). -/
def lookupAssign (l : List (String × String)) (k : String) : Option String :=
  mergeAssign emptyRcd l k

/-- A purchasable package under a menu item (src/src/types, `Variation`). -/
structure Variation where
  id : String
  name : String
  price : ℚ
  member_price : Option ℚ := none
  reseller_price : Option ℚ := none
deriving DecidableEq, Repr

/-- An optional extra attached to a cart line (src/src/types, `AddOn`). -/
structure AddOn where
  id : String
  name : String
  price : ℚ
  quantity : Option Nat := none
deriving DecidableEq, Repr

/-- Per-item checkout input definition (src/src/types, `CustomField`). -/
structure CustomField where
  key : String
  label : String
  placeholder : String := ""
  required : Bool := false
deriving DecidableEq, Repr

/-- Catalog entity (src/src/types, `MenuItem`). -/
structure MenuItem where
  id : String
  name : String
  basePrice : ℚ
  available : Bool := true
  isOnDiscount : Bool := false
  discountPercentage : Option ℚ := none
  variations : Option (List Variation) := none
  customFields : Option (List CustomField) := none
deriving DecidableEq, Repr

/-- Authenticated identity (src/src/types, `Member`). -/
structure Member where
  id : String
  username : String
  email : String
  user_type : String
  status : String
  password_hash : String
deriving DecidableEq, Repr

/-- A cart line: a `MenuItem` snapshot plus cart-specific fields
(src/src/types, `CartItem extends MenuItem`). -/
structure CartItem where
  id : String
  name : String
  basePrice : ℚ
  available : Bool := true
  isOnDiscount : Bool := false
  discountPercentage : Option ℚ := none
  variations : Option (List Variation) := none
  customFields : Option (List CustomField) := none
  quantity : Nat
  selectedVariation : Option Variation := none
  selectedAddOns : List AddOn := []
  totalPrice : ℚ := 0
  effectiveUnitPriceOverride : Option ℚ := none
deriving DecidableEq, Repr

/-- The `MenuItem` part of a cart line (TS structural subtyping). -/
def CartItem.toMenuItem (c : CartItem) : MenuItem :=
  { id := c.id, name := c.name, basePrice := c.basePrice, available := c.available,
    isOnDiscount := c.isOnDiscount, discountPercentage := c.discountPercentage,
    variations := c.variations, customFields := c.customFields }

/-- Resolve a variation price for the current member
(`getVariationPriceForMember`, src/src/hooks/useCart.ts lines 5-10).
The `getD` fallbacks are unreachable: each branch is guarded by `isSome`. -/
def getVariationPriceForMember (variation : Variation) (currentMember : Option Member) : ℚ :=
  match currentMember with
  | none => variation.price
  | some m =>
    if m.user_type = "reseller" ∧ variation.reseller_price ≠ none then
      variation.reseller_price.getD variation.price
    else if m.user_type = "end_user" ∧ variation.member_price ≠ none then
      variation.member_price.getD variation.price
    else
      variation.price

/-- Sum over add-ons of `(addOn.quantity ?? 1) * addOn.price`
(the loop body of `calculateItemPrice`, src/src/hooks/useCart.ts lines 41-45). -/
def addOnsTotal (addOns : List AddOn) : ℚ :=
  addOns.foldl (fun acc a => acc + ((a.quantity.getD 1 : Nat) : ℚ) * a.price) 0

/-- Computed unit price of a configuration
(`calculateItemPrice`, src/src/hooks/useCart.ts lines 36-47). -/
def calculateItemPrice (currentMember : Option Member) (item : MenuItem)
    (variation : Option Variation) (addOns : Option (List AddOn)) : ℚ :=
  item.basePrice
    + (match variation with
       | some v => getVariationPriceForMember v currentMember
       | none => 0)
    + (match addOns with
       | some l => addOnsTotal l
       | none => 0)

/-- Effective unit price of a cart line
(`getEffectiveUnitPrice`, src/src/hooks/useCart.ts lines 50-53). -/
def getEffectiveUnitPrice (currentMember : Option Member) (cartItem : CartItem) : ℚ :=
  match cartItem.effectiveUnitPriceOverride with
  | some p => p
  | none =>
    calculateItemPrice currentMember cartItem.toMenuItem
      cartItem.selectedVariation (some cartItem.selectedAddOns)

/-- Cart total (`getTotalPrice`, src/src/hooks/useCart.ts lines 146-148). -/
def getTotalPrice (currentMember : Option Member) (cartItems : List CartItem) : ℚ :=
  cartItems.foldl (fun total item =>
    total + getEffectiveUnitPrice currentMember item * (item.quantity : ℚ)) 0

/-- Cart item count (`getTotalItems`, src/src/hooks/useCart.ts lines 150-152). -/
def getTotalItems (cartItems : List CartItem) : Nat :=
  cartItems.foldl (fun total item => total + item.quantity) 0

/-- Cart startup initializer (src/src/hooks/useCart.ts lines 14-24): read the
`amber_cartItems` storage entry and JSON-parse it; the parse step is abstracted
as a function returning `none` on failure (the `catch` branch), and absence or
failure yields the empty cart. -/
def loadCartItems (storage : Option String) (parse : String → Option (List CartItem)) :
    List CartItem :=
  match storage with
  | none => []
  | some s =>
    match parse s with
    | some items => items
    | none => []

/-- Session tier test (`isReseller`, src/src/context/MemberAuthContext.tsx line 147):
`currentMember?.user_type === 'reseller'`. -/
def isReseller (currentMember : Option Member) : Bool :=
  match currentMember with
  | some m => m.user_type = "reseller"
  | none => false

/-- Truthy test `currentMember && currentMember.user_type === t`. -/
def userTypeIs (currentMember : Option Member) (t : String) : Bool :=
  match currentMember with
  | some m => m.user_type = t
  | none => false

/-- Variation lookup (`getVariationById`, src/src/components/MenuItemCard.tsx
lines 77-80); an absent or empty (falsy) id yields `undefined`. -/
def getVariationById (item : MenuItem) (variationId : Option String) : Option Variation :=
  match variationId, item.variations with
  | some vid, some vs => if vid = "" then none else vs.find? (fun v => v.id = vid)
  | _, _ => none

/-- Truthy value of `variationId && memberDiscounts[variationId]`: a discount is
seen only when the id is non-empty, the entry exists and is non-zero. -/
def memberDiscountTruthy (memberDiscounts : String → Option ℚ) (variationId : Option String) :
    Option ℚ :=
  match variationId with
  | none => none
  | some vid =>
    if vid = "" then none
    else
      match memberDiscounts vid with
      | some d => if d = 0 then none else some d
      | none => none

/-- Synchronous catalog display price (`getDiscountedPriceSync`,
src/src/components/MenuItemCard.tsx lines 83-109), with its five priorities. -/
def getDiscountedPriceSync (item : MenuItem) (currentMember : Option Member)
    (memberDiscounts : String → Option ℚ) (basePrice : ℚ) (variationId : Option String) : ℚ :=
  let variation := getVariationById item variationId
  if isReseller currentMember && currentMember.isSome
      && (variation.bind (·.reseller_price)).isSome then
    (variation.bind (·.reseller_price)).getD basePrice
  else if currentMember.isSome && !isReseller currentMember
      && userTypeIs currentMember "end_user"
      && (variation.bind (·.member_price)).isSome then
    (variation.bind (·.member_price)).getD basePrice
  else if isReseller currentMember && currentMember.isSome
      && (memberDiscountTruthy memberDiscounts variationId).isSome then
    (memberDiscountTruthy memberDiscounts variationId).getD basePrice
  else if item.isOnDiscount && item.discountPercentage.isSome then
    basePrice - basePrice * item.discountPercentage.getD 0
  else
    basePrice

/-- Override price passed to `addToCart` by the catalog card
(`handleItemSelect`, src/src/components/MenuItemCard.tsx lines 116-127). -/
def handleItemSelectPrice (item : MenuItem) (currentMember : Option Member)
    (memberDiscounts : String → Option ℚ) (v : Option Variation) : ℚ :=
  item.basePrice
    + (match v with
       | some vv => getDiscountedPriceSync item currentMember memberDiscounts vv.price (some vv.id)
       | none => 0)

/-- Chars of a list before the first occurrence of `sep` (the whole list when
`sep` does not occur): the first component of a JS `split(sep)`. -/
def charsBefore (sep : List Char) : List Char → List Char
  | [] => []
  | c :: cs => if sep.isPrefixOf (c :: cs) then [] else c :: charsBefore sep cs

/-- Whether `sep` occurs as a contiguous run. -/
def containsSeq (sep : List Char) : List Char → Bool
  | [] => sep.isPrefixOf []
  | c :: cs => sep.isPrefixOf (c :: cs) || containsSeq sep cs

/-- The synthetic cart-line id separator. -/
def cartSep : String := ":::CART:::"

/-- Extraction of the originating menu item id in `addToCart`
(src/src/hooks/useCart.ts lines 94-95): `id.split(':::CART:::')` has more than
one part exactly when the separator occurs, in which case the part before it is
taken; otherwise the fallback is `id.split('-')[0]`. -/
def origIdOfCartLineId (s : String) : String :=
  if containsSeq cartSep.data s.data then String.mk (charsBefore cartSep.data s.data)
  else String.mk (charsBefore ['-'] s.data)

/-- The checkout variant (`getOriginalMenuItemId`, src/unnamed/part_001 lines
49-52), whose fallback returns the id unchanged. -/
def getOriginalMenuItemId (s : String) : String :=
  if containsSeq cartSep.data s.data then String.mk (charsBefore cartSep.data s.data)
  else s

/-- JS falsy-guard `q || 1` on a numeric field (zero is falsy). -/
def orOneNat (q : Option Nat) : Nat :=
  match q with
  | some n => if n = 0 then 1 else n
  | none => 1

/-- JS falsy-guard `s || d` on a string (the empty string is falsy). -/
def orStr (s : Option String) (d : String) : String :=
  match s with
  | some s' => if s' = "" then d else s'
  | none => d

/-- In-place update of the first grouped entry with the given id:
`existing.quantity = (existing.quantity || 1) + 1`. -/
def bumpFirst : List AddOn → String → List AddOn
  | [], _ => []
  | g :: gs, i =>
    if g.id = i then { g with quantity := some (orOneNat g.quantity + 1) } :: gs
    else g :: bumpFirst gs i

/-- One step of the `reduce` in `normalizeAddOns` (src/src/hooks/useCart.ts
lines 63-71): a duplicate id increments the stored entry's quantity by one,
a fresh id is appended with quantity `quantity || 1`. -/
def groupStep (acc : List AddOn) (a : AddOn) : List AddOn :=
  if acc.any (fun g => g.id = a.id) then bumpFirst acc a.id
  else acc ++ [{ a with quantity := some (orOneNat a.quantity) }]

/-- Ordering by add-on id, the comparator `a.id.localeCompare(b.id)`. -/
def idLe (a b : AddOn) : Prop := a.id ≤ b.id

instance : DecidableRel idLe := fun a b => inferInstanceAs (Decidable (a.id ≤ b.id))

instance : IsTotal AddOn idLe := ⟨fun a b => le_total a.id b.id⟩

instance : IsTrans AddOn idLe := ⟨fun _ _ _ hab hbc => le_trans hab hbc⟩

/-- `normalizeAddOns` (src/src/hooks/useCart.ts lines 60-74): group by id,
then sort by id. The JS stable `sort` is modelled by insertion sort. -/
def normalizeAddOns (addOns : Option (List AddOn)) : List AddOn :=
  match addOns with
  | none => []
  | some xs =>
    if xs = [] then []
    else List.insertionSort idLe (xs.foldl groupStep [])

/-- Printed quantity of an add-on entry, as interpolated into the key. -/
def quantityStr (q : Option Nat) : String :=
  match q with
  | some n => toString n
  | none => "undefined"

/-- `createItemKey` (src/src/hooks/useCart.ts lines 79-86): the canonical
signature `menuItemId|variationKey|addOnsKey`. -/
def createItemKey (menuItemId : String) (selectedVariation : Option Variation)
    (selectedAddOns : Option (List AddOn)) : String :=
  let variationKey := orStr (selectedVariation.map (·.id)) "none"
  let parts := (normalizeAddOns selectedAddOns).map (fun a => a.id ++ ":" ++ quantityStr a.quantity)
  let joined := String.intercalate "," (List.insertionSort (· ≤ ·) parts)
  let addOnsKey := if joined = "" then "none" else joined
  menuItemId ++ "|" ++ variationKey ++ "|" ++ addOnsKey

/-- The comparison key computed for a stored cart line during the
existing-line search (src/src/hooks/useCart.ts lines 91-98). -/
def cartLineKey (c : CartItem) : String :=
  createItemKey (origIdOfCartLineId c.id) c.selectedVariation (some c.selectedAddOns)

/-- Quantity merge into the first line whose key matches: the observable
behaviour of the JS `find` followed by the reference-equality `map` update
(src/src/hooks/useCart.ts lines 100-106). -/
def bumpQuantityFirst (key : String) (q : Nat) : List CartItem → List CartItem
  | [] => []
  | c :: cs =>
    if cartLineKey c = key then { c with quantity := c.quantity + q } :: cs
    else c :: bumpQuantityFirst key q cs

/-- The new cart line built by `addToCart` when no existing line matches
(src/src/hooks/useCart.ts lines 108-120). -/
def freshCartLine (currentMember : Option Member) (item : MenuItem) (quantity : Nat)
    (variation : Option Variation) (addOns : Option (List AddOn))
    (effectiveUnitPrice : Option ℚ) (freshSuffix : String) : CartItem :=
  { id := item.id ++ cartSep ++ freshSuffix,
    name := item.name, basePrice := item.basePrice, available := item.available,
    isOnDiscount := item.isOnDiscount, discountPercentage := item.discountPercentage,
    variations := item.variations, customFields := item.customFields,
    quantity := quantity, selectedVariation := variation,
    selectedAddOns := normalizeAddOns addOns,
    totalPrice :=
      match effectiveUnitPrice with
      | some p => p
      | none => calculateItemPrice currentMember item variation addOns,
    effectiveUnitPriceOverride := effectiveUnitPrice }

/-- `addToCart` (src/src/hooks/useCart.ts lines 55-123). `freshSuffix` stands
for the runtime `Date.now()-random` uniqueness suffix of the synthetic id. -/
def addToCart (currentMember : Option Member) (cart : List CartItem) (item : MenuItem)
    (quantity : Nat) (variation : Option Variation) (addOns : Option (List AddOn))
    (effectiveUnitPrice : Option ℚ) (freshSuffix : String) : List CartItem :=
  let newItemKey := createItemKey item.id variation addOns
  if cart.any (fun c => cartLineKey c = newItemKey) then
    bumpQuantityFirst newItemKey quantity cart
  else
    freshCartLine currentMember item quantity variation addOns effectiveUnitPrice freshSuffix
      :: cart

/-- A side effect emitted by the member auth operations: storage writes and
the `memberAuthUpdate` custom event. -/
inductive AuthEvent where
  | storageSet (key value : String)
  | storageRemove (key : String)
  | dispatchAuthUpdate
deriving DecidableEq, Repr

/-- The `{ success, error?, member? }` result shape of `login`/`register`. -/
structure AuthResult where
  success : Bool
  error : Option String := none
  member : Option Member := none
deriving DecidableEq, Repr

/-- `login` (src/src/context/MemberAuthContext.tsx lines 118-140). The backend
row lookup by email is the `dbMember` parameter and `hash` models the SHA-256
hex digest; the result is returned together with the new `currentMember` state
and the emitted side-effect events in program order. -/
def login (dbMember : Option Member) (hash : String → String) (password : String)
    (prevMember : Option Member) : AuthResult × Option Member × List AuthEvent :=
  match dbMember with
  | none => ({ success := false, error := some "Invalid email or password" }, prevMember, [])
  | some m =>
    if m.status ≠ "active" then
      ({ success := false, error := some "Account is inactive" }, prevMember, [])
    else if hash password ≠ m.password_hash then
      ({ success := false, error := some "Invalid email or password" }, prevMember, [])
    else
      ({ success := true, member := some m }, some m,
        [AuthEvent.storageSet "member_id" m.id, AuthEvent.dispatchAuthUpdate])

/-- `register` (src/src/context/MemberAuthContext.tsx lines 73-116). The two
existence lookups and the insert round trip are parameters standing for the
backend responses. -/
def register (emailTaken usernameTaken : Bool) (insertError : Option String)
    (inserted : Option Member) (prevMember : Option Member) :
    AuthResult × Option Member × List AuthEvent :=
  if emailTaken then
    ({ success := false, error := some "Email already registered" }, prevMember, [])
  else if usernameTaken then
    ({ success := false, error := some "Username already taken" }, prevMember, [])
  else
    match insertError with
    | some msg => ({ success := false, error := some msg }, prevMember, [])
    | none =>
      match inserted with
      | some nm =>
        ({ success := true, member := some nm }, some nm,
          [AuthEvent.storageSet "member_id" nm.id, AuthEvent.dispatchAuthUpdate])
      | none => ({ success := false, error := some "Registration failed" }, prevMember, [])

/-- `logout` (src/src/context/MemberAuthContext.tsx lines 142-145): clear the
stored id and the in-memory member. No event is dispatched. -/
def logout (_prevMember : Option Member) : Option Member × List AuthEvent :=
  (none, [AuthEvent.storageRemove "member_id"])

/-- Truthy test `item.customFields && item.customFields.length > 0`. -/
def itemHasCustomFields (c : CartItem) : Bool :=
  match c.customFields with
  | some l => l ≠ []
  | none => false

/-- Deduplication by original menu item id keeping the first occurrence
(the `Map`-based dedup in `itemsWithCustomFields`, src/unnamed/part_001
lines 58-69). -/
def dedupByOrigId : List CartItem → List String → List CartItem
  | [], _ => []
  | c :: cs, seen =>
    if getOriginalMenuItemId c.id ∈ seen then dedupByOrigId cs seen
    else c :: dedupByOrigId cs (getOriginalMenuItemId c.id :: seen)

/-- `itemsWithCustomFields` (src/unnamed/part_001 lines 58-69). -/
def itemsWithCustomFields (cartItems : List CartItem) : List CartItem :=
  dedupByOrigId (cartItems.filter itemHasCustomFields) []

/-- `hasAnyCustomFields` (src/unnamed/part_001 line 71). -/
def hasAnyCustomFields (cartItems : List CartItem) : Bool :=
  !(itemsWithCustomFields cartItems).isEmpty

/-- `item.selectedVariation?.id || 'default'`. -/
def varIdOf (c : CartItem) : String :=
  orStr (c.selectedVariation.map (fun v => v.id)) "default"

/-- Push into the per-game variation map, preserving insertion order. -/
def insertVar (inner : List (String × List CartItem)) (vid : String) (c : CartItem) :
    List (String × List CartItem) :=
  match inner with
  | [] => [(vid, [c])]
  | (v, items) :: rest =>
    if v = vid then (v, items ++ [c]) :: rest
    else (v, items) :: insertVar rest vid c

/-- Push into the outer game map, preserving insertion order. -/
def insertGame (outer : List (String × List (String × List CartItem)))
    (gid vid : String) (c : CartItem) : List (String × List (String × List CartItem)) :=
  match outer with
  | [] => [(gid, [(vid, [c])])]
  | (g, inner) :: rest =>
    if g = gid then (g, insertVar inner vid c) :: rest
    else (g, inner) :: insertGame rest gid vid c

/-- `itemsByGameAndVariation` (src/unnamed/part_001 lines 102-121): the nested
insertion-ordered grouping of cart items by game and variation. -/
def itemsByGameAndVariation (cartItems : List CartItem) :
    List (String × List (String × List CartItem)) :=
  cartItems.foldl (fun acc c => insertGame acc (getOriginalMenuItemId c.id) (varIdOf c) c) []

/-- Truthiness of `customFieldValues[key]?.trim()`: the key holds a value that
is not empty and not whitespace-only. -/
def nonblankAt (values : Rcd) (key : String) : Bool :=
  match values key with
  | some s => s.trim ≠ ""
  | none => false

/-- The inner `every` over a game's variation groups and the first item's
fields in multiple-accounts validation (src/unnamed/part_001 lines 767-776). -/
def validFieldsFor (values : Rcd) (firstItem : CartItem)
    (variations : List (String × List CartItem)) : Bool :=
  match firstItem.customFields with
  | none => true
  | some cfs =>
    variations.all (fun vv =>
      cfs.all (fun f =>
        !f.required
          || nonblankAt values
              (getOriginalMenuItemId firstItem.id ++ "_" ++ vv.1 ++ "_" ++ f.key)))

/-- One game group of multiple-accounts validation, looking up the game's
first cart item (src/unnamed/part_001 lines 765-777). -/
def validGameGroup (cartItems : List CartItem) (values : Rcd)
    (gv : String × List (String × List CartItem)) : Bool :=
  match cartItems.find? (fun item => getOriginalMenuItemId item.id = gv.1) with
  | none => true
  | some firstItem => validFieldsFor values firstItem gv.2

/-- One item of single-account validation (src/unnamed/part_001 lines 796-804). -/
def validSingleItem (values : Rcd) (item : CartItem) : Bool :=
  match item.customFields with
  | none => true
  | some cfs =>
    cfs.all (fun f =>
      !f.required || nonblankAt values (getOriginalMenuItemId item.id ++ "_" ++ f.key))

/-- `isDetailsValid` (src/unnamed/part_001 lines 760-805), the gate of the
`details → payment` transition (the button is disabled exactly when false,
line 1102). -/
def isDetailsValid (cartItems : List CartItem) (useMultipleAccounts : Bool) (values : Rcd) :
    Bool :=
  if useMultipleAccounts then
    if hasAnyCustomFields cartItems then
      (itemsByGameAndVariation cartItems).all (validGameGroup cartItems values)
    else
      (itemsByGameAndVariation cartItems).all (fun gv =>
        gv.2.all (fun vv => nonblankAt values ("default_" ++ gv.1 ++ "_" ++ vv.1 ++ "_ign")))
  else if !hasAnyCustomFields cartItems then
    nonblankAt values "default_ign"
  else
    (itemsWithCustomFields cartItems).all (validSingleItem values)

/-- Required value keys of one (item, variation) pair in multiple-accounts
mode, stated after the specification's wording. -/
def requiredKeysForItemVar (firstItem : CartItem) (vid : String) : List String :=
  match firstItem.customFields with
  | none => []
  | some cfs =>
    (cfs.filter (fun f => f.required)).map
      (fun f => getOriginalMenuItemId firstItem.id ++ "_" ++ vid ++ "_" ++ f.key)

/-- Required keys contributed by one game's variation groups. -/
def keysFieldsFor (firstItem : CartItem) (variations : List (String × List CartItem)) :
    List String :=
  variations.flatMap (fun vv => requiredKeysForItemVar firstItem vv.1)

/-- Required keys contributed by one game group in multiple-accounts mode. -/
def keysGameGroup (cartItems : List CartItem)
    (gv : String × List (String × List CartItem)) : List String :=
  match cartItems.find? (fun item => getOriginalMenuItemId item.id = gv.1) with
  | none => []
  | some firstItem => keysFieldsFor firstItem gv.2

/-- Required keys contributed by one item in single-account mode. -/
def keysSingleItem (item : CartItem) : List String :=
  match item.customFields with
  | none => []
  | some cfs =>
    (cfs.filter (fun f => f.required)).map
      (fun f => getOriginalMenuItemId item.id ++ "_" ++ f.key)

/-- The collection of required field keys of the active checkout mode, stated
after the specification's wording: per applicable item in single-account mode,
per (item, variation) pair in multiple-accounts mode, and the default IGN
field(s) when no cart item defines custom fields. -/
def requiredFieldKeys (cartItems : List CartItem) (useMultipleAccounts : Bool) : List String :=
  if useMultipleAccounts then
    if hasAnyCustomFields cartItems then
      (itemsByGameAndVariation cartItems).flatMap (keysGameGroup cartItems)
    else
      (itemsByGameAndVariation cartItems).flatMap (fun gv =>
        gv.2.map (fun vv => "default_" ++ gv.1 ++ "_" ++ vv.1 ++ "_ign"))
  else if !hasAnyCustomFields cartItems then
    ["default_ign"]
  else
    (itemsWithCustomFields cartItems).flatMap keysSingleItem

/-- The checkout field-entry state touched by the mode toggle. -/
structure CheckoutFieldsState where
  useMultipleAccounts : Bool
  customFieldValues : Rcd

/-- The `useMultipleAccounts` checkbox change handler (src/unnamed/part_001
lines 839-845): set the flag, and clear all entered values only when the box
was just unchecked (`if (!e.target.checked)`). -/
def toggleMultipleAccounts (checked : Bool) (st : CheckoutFieldsState) : CheckoutFieldsState :=
  { st with useMultipleAccounts := checked,
            customFieldValues := if checked then st.customFieldValues else emptyRcd }

/-- One entry of the structured `'Multiple Accounts'` list in a stored order's
customer info. -/
structure MultiAccount where
  game : String
  packageName : String
  fields : List (String × String)
deriving DecidableEq, Repr

/-- A stored order's `customer_info` record: the optional structured
`'Multiple Accounts'` list plus the plain string entries (the
`'Payment Method'` entry included, the `'Multiple Accounts'` key excluded). -/
structure CustomerInfo where
  multipleAccounts : Option (List MultiAccount) := none
  entries : List (String × String) := []
deriving DecidableEq, Repr

/-- The slice of a stored order that `checkExistingOrder` consumes. -/
structure Order where
  id : String
  status : String
  customer_info : Option CustomerInfo := none
deriving DecidableEq, Repr

/-- The checkout component state touched by `checkExistingOrder`. -/
structure CheckoutOrderState where
  customFieldValues : Rcd
  useMultipleAccounts : Bool
  existingOrderId : Option String := none
  existingOrderStatus : Option String := none
  orderId : Option String := none

/-- One custom field of the rejected-order reload loop (src/unnamed/part_001
lines 164-170): a truthy stored value yields an assignment under the composite
key. -/
def accountFieldEntry (account : MultiAccount) (mi : CartItem) (field : CustomField) :
    Option (String × String) :=
  match lookupAssign account.fields field.label with
  | some v =>
    if v = "" then none
    else some (getOriginalMenuItemId mi.id ++ "_" ++ varIdOf mi ++ "_" ++ field.key, v)
  | none => none

/-- The assignments contributed by one account once its cart item was located
(src/unnamed/part_001 lines 159-179). -/
def loadAccountFields (hasAny : Bool) (acc : List (String × String)) (account : MultiAccount)
    (mi : CartItem) : List (String × String) :=
  if hasAny && mi.customFields.isSome then
    acc ++ (mi.customFields.getD []).filterMap (accountFieldEntry account mi)
  else
    match lookupAssign account.fields "IGN" with
    | some v =>
      if v = "" then acc
      else acc ++ [("default_" ++ getOriginalMenuItemId mi.id ++ "_" ++ varIdOf mi ++ "_ign", v)]
    | none => acc

/-- One account of the rejected-order reload loop (src/unnamed/part_001 lines
150-180): locate the matching cart item by game and package name and collect
the truthy field values under their composite keys. -/
def loadAccountStep (cartItems : List CartItem) (hasAny : Bool)
    (acc : List (String × String)) (account : MultiAccount) : List (String × String) :=
  match cartItems.find? (fun item =>
      item.name == account.game
        && (match item.selectedVariation with
            | some v => v.name == account.packageName
            | none => false)) with
  | none => acc
  | some mi => loadAccountFields hasAny acc account mi

/-- One `Object.entries` step of the single-account reload loop
(src/unnamed/part_001 lines 184-205). -/
def loadEntryStep (itemsWCF : List CartItem) (hasAny : Bool)
    (acc : List (String × String)) (kv : String × String) : List (String × String) :=
  if kv.1 = "Payment Method" then acc
  else if hasAny then
    acc ++ itemsWCF.flatMap (fun item =>
      (item.customFields.getD []).filterMap (fun field =>
        if field.label = kv.1 then some (getOriginalMenuItemId item.id ++ "_" ++ field.key, kv.2)
        else none))
  else if kv.1 = "IGN" then acc ++ [("default_ign", kv.2)]
  else acc

/-- The `loadedValues` assignments built from a rejected order's customer info
(src/unnamed/part_001 lines 136-206). -/
def loadedValuesFor (cartItems : List CartItem) (ci : CustomerInfo) : List (String × String) :=
  match ci.multipleAccounts with
  | some accounts => accounts.foldl (loadAccountStep cartItems (hasAnyCustomFields cartItems)) []
  | none => ci.entries.foldl (loadEntryStep (itemsWithCustomFields cartItems)
      (hasAnyCustomFields cartItems)) []

/-- The rejected-order branch (src/unnamed/part_001 lines 135-212): reconstruct
the multiple-accounts flag from the stored record and merge the loaded values
over the present ones (the merge is skipped when nothing was loaded, which is
the same record). -/
def applyRejectedLoad (st : CheckoutOrderState) (cartItems : List CartItem)
    (ci : CustomerInfo) : CheckoutOrderState :=
  let st1 := { st with useMultipleAccounts := ci.multipleAccounts.isSome }
  let loaded := loadedValuesFor cartItems ci
  if loaded ≠ [] then
    { st1 with customFieldValues := mergeAssign st1.customFieldValues loaded }
  else st1

/-- `checkExistingOrder` (src/unnamed/part_001 lines 124-234): `stored` is the
`current_order_id` storage entry and `fetch` the backend lookup; the result is
the new component state and the new storage entry. -/
def checkExistingOrder (st : CheckoutOrderState) (cartItems : List CartItem)
    (stored : Option String) (fetch : String → Option Order) :
    CheckoutOrderState × Option String :=
  match stored with
  | none => (st, none)
  | some oid =>
    match fetch oid with
    | none => (st, none)
    | some order =>
      let st1 := { st with existingOrderId := some order.id,
                           existingOrderStatus := some order.status,
                           orderId := some order.id }
      let st2 :=
        match order.customer_info with
        | some ci => if order.status = "rejected" then applyRejectedLoad st1 cartItems ci else st1
        | none => st1
      if order.status = "approved" then
        ({ st2 with existingOrderStatus := none, existingOrderId := none, orderId := none }, none)
      else if order.status = "rejected" then (st2, none)
      else (st2, some oid)

/-- A value occurs somewhere in the stored customer info (either as a plain
entry value or inside some account's field map). -/
def valueInCustomerInfo (ci : CustomerInfo) (v : String) : Prop :=
  (∃ p ∈ ci.entries, p.2 = v)
  ∨ (∃ accounts, ci.multipleAccounts = some accounts
      ∧ ∃ acc ∈ accounts, ∃ q ∈ acc.fields, q.2 = v)

/-- Concrete menu item used by witness statements. -/
def w1item : MenuItem := { id := "g1", name := "Game One", basePrice := 10 }

/-- Concrete reseller member used by witness statements. -/
def w4member : Member :=
  { id := "m1", username := "u1", email := "u1@s.t", user_type := "reseller",
    status := "active", password_hash := "hh" }

/-- Concrete variation with both tier prices, used by witness statements. -/
def w4variation : Variation :=
  { id := "v1", name := "100 Gems", price := 100, member_price := some 80,
    reseller_price := some 60 }

/-- Concrete menu item carrying `w4variation`, used by witness statements. -/
def w4item : MenuItem :=
  { id := "g2", name := "Game Two", basePrice := 0, variations := some [w4variation] }

/-- Concrete active end user used by witness statements. -/
def w8member : Member :=
  { id := "m2", username := "u2", email := "u2@s.t", user_type := "end_user",
    status := "active", password_hash := "pw" }

/-- Concrete cart item used by witness statements. -/
def w10cartItem : CartItem :=
  { id := "c1", name := "N", basePrice := 5, quantity := 1,
    selectedVariation := some { id := "v9", name := "V", price := 3 },
    selectedAddOns := [{ id := "a", name := "A", price := 2, quantity := some 2 }],
    totalPrice := 0 }

/-- Concrete rejected order used by the counterexample and witness. -/
def w2order : Order :=
  { id := "o1", status := "rejected",
    customer_info := some { entries := [("IGN", "Hero")] } }

/-- Concrete approved order used by the witness. -/
def w2orderApproved : Order := { id := "o2", status := "approved" }

/-- Concrete checkout state used by the counterexample and witness. -/
def w2state : CheckoutOrderState :=
  { customFieldValues := emptyRcd, useMultipleAccounts := false }

/-- All entries of a grouped list carry pairwise distinct ids. -/
def DistinctIds (l : List AddOn) : Prop := (l.map (fun g => g.id)).Nodup

/-- A grouped entry carries an explicit non-zero quantity. -/
def NormalQty (g : AddOn) : Prop := ∃ n, g.quantity = some n ∧ n ≠ 0

theorem orOneNat_ne_zero (q : Option Nat) : orOneNat q ≠ 0 := by
  cases q with
  | none => simp [orOneNat]
  | some n => simp only [orOneNat]; split <;> simp_all

theorem bumpFirst_map_id (l : List AddOn) (i : String) :
    (bumpFirst l i).map (fun g => g.id) = l.map (fun g => g.id) := by
  induction l with
  | nil => rfl
  | cons g gs ih =>
    by_cases h : g.id = i <;> simp [bumpFirst, h, ih]

theorem normalizeAddOns_none : normalizeAddOns none = [] := rfl

theorem normalizeAddOns_some (xs : List AddOn) :
    normalizeAddOns (some xs) =
      if xs = [] then [] else List.insertionSort idLe (xs.foldl groupStep []) := rfl

theorem bumpFirst_normal (l : List AddOn) (i : String) (h : ∀ g ∈ l, NormalQty g) :
    ∀ g ∈ bumpFirst l i, NormalQty g := by
  induction l with
  | nil => simp [bumpFirst]
  | cons g gs ih =>
    by_cases hg : g.id = i
    · simp only [bumpFirst, if_pos hg]
      intro x hx
      rw [List.mem_cons] at hx
      rcases hx with rfl | hx
      · exact ⟨orOneNat g.quantity + 1, rfl, by omega⟩
      · exact h x (List.mem_cons_of_mem _ hx)
    · simp only [bumpFirst, if_neg hg]
      intro x hx
      rw [List.mem_cons] at hx
      rcases hx with rfl | hx
      · exact h x (List.mem_cons_self _ _)
      · exact ih (fun y hy => h y (List.mem_cons_of_mem _ hy)) x hx

theorem groupStep_distinct (acc : List AddOn) (a : AddOn) (h : DistinctIds acc) :
    DistinctIds (groupStep acc a) := by
  unfold groupStep
  split
  · unfold DistinctIds
    rw [bumpFirst_map_id]
    exact h
  · rename_i hany
    unfold DistinctIds at h ⊢
    rw [List.map_append, List.nodup_append]
    refine ⟨h, by simp, ?_⟩
    intro x hx
    simp only [List.mem_map] at hx
    obtain ⟨g, hg, rfl⟩ := hx
    simp only [List.map_cons, List.map_nil, List.mem_singleton]
    intro hgid
    exact hany (by simp only [List.any_eq_true]; exact ⟨g, hg, by simp [hgid]⟩)

theorem groupStep_normal (acc : List AddOn) (a : AddOn) (h : ∀ g ∈ acc, NormalQty g) :
    ∀ g ∈ groupStep acc a, NormalQty g := by
  unfold groupStep
  split
  · exact bumpFirst_normal acc a.id h
  · intro x hx
    rw [List.mem_append] at hx
    rcases hx with hx | hx
    · exact h x hx
    · simp only [List.mem_singleton] at hx
      exact ⟨orOneNat a.quantity, by simp [hx], orOneNat_ne_zero a.quantity⟩

theorem foldl_groupStep_distinct (xs : List AddOn) :
    ∀ acc, DistinctIds acc → DistinctIds (xs.foldl groupStep acc) := by
  induction xs with
  | nil => intro acc h; exact h
  | cons x xs ih => intro acc h; exact ih _ (groupStep_distinct acc x h)

theorem foldl_groupStep_normal (xs : List AddOn) :
    ∀ acc, (∀ g ∈ acc, NormalQty g) → ∀ g ∈ xs.foldl groupStep acc, NormalQty g := by
  induction xs with
  | nil => intro acc h; exact h
  | cons x xs ih => intro acc h; exact ih _ (groupStep_normal acc x h)

theorem foldl_groupStep_fixpoint (ys : List AddOn) :
    ∀ acc, DistinctIds (acc ++ ys) → (∀ g ∈ ys, NormalQty g) →
      ys.foldl groupStep acc = acc ++ ys := by
  induction ys with
  | nil => intro acc _ _; simp
  | cons y ys ih =>
    intro acc hdis hnorm
    have hyid : y.id ∉ acc.map (fun g => g.id) := by
      unfold DistinctIds at hdis
      rw [List.map_append, List.nodup_append] at hdis
      intro hmem
      exact hdis.2.2 hmem (by simp)
    have hany : acc.any (fun g => g.id = y.id) = false := by
      rw [List.any_eq_false]
      intro g hg
      simp only [decide_eq_true_eq]
      intro hEq
      exact hyid (by rw [← hEq]; exact List.mem_map_of_mem _ hg)
    have hstep : groupStep acc y = acc ++ [y] := by
      unfold groupStep
      rw [if_neg (by simp [hany])]
      obtain ⟨n, hq, hn⟩ := hnorm y (by simp)
      have : orOneNat y.quantity = n := by rw [hq]; simp [orOneNat, hn]
      rw [this, ← hq]
    simp only [List.foldl_cons, hstep]
    rw [ih (acc ++ [y]) (by simpa using hdis) (fun g hg => hnorm g (by simp [hg]))]
    simp

theorem normalizeAddOns_distinct (x : Option (List AddOn)) :
    DistinctIds (normalizeAddOns x) := by
  cases x with
  | none => simp [normalizeAddOns, DistinctIds]
  | some xs =>
    by_cases hxs : xs = []
    · simp [normalizeAddOns_some, hxs, DistinctIds]
    · unfold DistinctIds
      rw [normalizeAddOns_some, if_neg hxs]
      have hperm := (List.perm_insertionSort idLe (xs.foldl groupStep [])).map (fun g => g.id)
      rw [hperm.nodup_iff]
      exact foldl_groupStep_distinct xs [] (by simp [DistinctIds])

theorem normalizeAddOns_normal (x : Option (List AddOn)) :
    ∀ g ∈ normalizeAddOns x, NormalQty g := by
  cases x with
  | none => simp [normalizeAddOns]
  | some xs =>
    by_cases hxs : xs = []
    · simp [normalizeAddOns_some, hxs]
    · rw [normalizeAddOns_some, if_neg hxs]
      intro g hg
      have hperm := List.perm_insertionSort idLe (xs.foldl groupStep [])
      exact foldl_groupStep_normal xs [] (by simp) g (hperm.mem_iff.mp hg)

theorem normalizeAddOns_sorted (x : Option (List AddOn)) :
    (normalizeAddOns x).Sorted idLe := by
  cases x with
  | none => simp [normalizeAddOns]
  | some xs =>
    by_cases hxs : xs = []
    · simp [normalizeAddOns_some, hxs]
    · rw [normalizeAddOns_some, if_neg hxs]
      exact List.sorted_insertionSort idLe _

/-- Normalization is a projection: renormalizing an already-normalized
add-on list changes nothing. -/
theorem normalizeAddOns_idem (x : Option (List AddOn)) :
    normalizeAddOns (some (normalizeAddOns x)) = normalizeAddOns x := by
  by_cases h : normalizeAddOns x = []
  · rw [h, normalizeAddOns_some]; simp [h]
  · rw [normalizeAddOns_some, if_neg h]
    rw [foldl_groupStep_fixpoint (normalizeAddOns x) []
      (by simpa using normalizeAddOns_distinct x) (normalizeAddOns_normal x)]
    simpa using (normalizeAddOns_sorted x).insertionSort_eq

theorem createItemKey_congr (i : String) (v : Option Variation) (a b : Option (List AddOn))
    (h : normalizeAddOns a = normalizeAddOns b) :
    createItemKey i v a = createItemKey i v b := by
  unfold createItemKey
  rw [h]

theorem isPrefixOf_self_append (s : Char) (ss b : List Char) :
    (s :: ss).isPrefixOf (s :: (ss ++ b)) = true := by
  rw [ List.isPrefixOf_iff_prefix]
  exact List.cons_prefix_cons.mpr ⟨rfl, ss.prefix_append b⟩

theorem containsSeq_append_sep (sep b : List Char) (hsep : sep ≠ []) :
    ∀ a : List Char, containsSeq sep (a ++ sep ++ b) = true := by
  intro a
  induction a with
  | nil =>
    obtain ⟨s, ss, rfl⟩ := List.exists_cons_of_ne_nil hsep
    simp only [List.nil_append, List.cons_append, containsSeq]
    rw [Bool.or_eq_true]
    exact Or.inl (isPrefixOf_self_append s ss b)
  | cons c cs ih =>
    have hshape : (c :: cs) ++ sep ++ b = c :: (cs ++ sep ++ b) := by simp
    rw [hshape]
    simp only [containsSeq]
    rw [ih, Bool.or_true]

theorem charsBefore_append_sep (sep b : List Char) (hsep : sep ≠ []) :
    ∀ a : List Char, containsSeq sep (a ++ sep.dropLast) = false →
      charsBefore sep (a ++ sep ++ b) = a := by
  intro a
  induction a with
  | nil =>
    intro _
    obtain ⟨s, ss, rfl⟩ := List.exists_cons_of_ne_nil hsep
    simp only [List.nil_append, List.cons_append, charsBefore]
    exact if_pos (isPrefixOf_self_append s ss b)
  | cons c cs ih =>
    intro hid
    have h2 : sep.isPrefixOf (c :: (cs ++ sep.dropLast)) = false
        ∧ containsSeq sep (cs ++ sep.dropLast) = false := by
      have h0 : containsSeq sep (c :: (cs ++ sep.dropLast)) = false := by
        have := hid
        simpa using this
      simp only [containsSeq, Bool.or_eq_false_iff] at h0
      exact h0
    have hpre : sep.isPrefixOf (c :: (cs ++ sep ++ b)) = false := by
      by_contra hcon
      rw [Bool.not_eq_false, List.isPrefixOf_iff_prefix] at hcon
      have hdl : sep.dropLast ++ [sep.getLast hsep] = sep := List.dropLast_append_getLast hsep
      have hL : c :: (cs ++ sep ++ b)
          = (c :: (cs ++ sep.dropLast)) ++ ([sep.getLast hsep] ++ b) := by
        conv_lhs => rw [← hdl]
        simp
      rw [hL] at hcon
      have hlen : sep.length ≤ (c :: (cs ++ sep.dropLast)).length := by
        have hpos : 1 ≤ sep.length := List.length_pos.mpr hsep
        simp only [List.length_cons, List.length_append, List.length_dropLast]
        omega
      have hsp : sep <+: (c :: (cs ++ sep.dropLast)) :=
        (List.isPrefix_append_of_length hlen).mp hcon
      rw [← List.isPrefixOf_iff_prefix, h2.1] at hsp
      exact Bool.false_ne_true hsp
    have hshape : (c :: cs) ++ sep ++ b = c :: (cs ++ sep ++ b) := by simp
    rw [hshape]
    simp only [charsBefore]
    rw [if_neg (fun hc => Bool.false_ne_true (hpre ▸ hc)), ih h2.2]

/-- The synthetic-id round trip: splitting `id + ':::CART:::' + suffix` on the
separator recovers `id`, provided the separator does not occur early (in
particular `id` neither contains it nor ends with `':::CART'`). -/
theorem origId_roundTrip (id suffix : String)
    (h : containsSeq cartSep.data (id.data ++ cartSep.data.dropLast) = false) :
    origIdOfCartLineId (id ++ cartSep ++ suffix) = id := by
  have hsep : cartSep.data ≠ [] := by decide
  have hdata : (id ++ cartSep ++ suffix).data = id.data ++ cartSep.data ++ suffix.data := by
    simp [String.data_append]
  unfold origIdOfCartLineId
  rw [hdata, containsSeq_append_sep cartSep.data suffix.data hsep id.data]
  rw [if_pos rfl, charsBefore_append_sep cartSep.data suffix.data hsep id.data h]

theorem cartLineKey_freshCartLine (m : Option Member) (item : MenuItem) (q : Nat)
    (v : Option Variation) (a : Option (List AddOn)) (p : Option ℚ) (s : String)
    (hid : containsSeq cartSep.data (item.id.data ++ cartSep.data.dropLast) = false) :
    cartLineKey (freshCartLine m item q v a p s) = createItemKey item.id v a := by
  unfold cartLineKey freshCartLine
  simp only
  rw [origId_roundTrip item.id s hid]
  exact createItemKey_congr _ _ _ _ (normalizeAddOns_idem a)

/--
Claim C1. For two `addToCart` calls with identical signature — same menu item,
same variation, and equal normalized add-on multisets — over a cart that holds
no line of that signature, the final cart is the initial cart with exactly one
additional line for the signature: its quantity is the sum `q1 + q2` of the two
calls' quantities (in either call order, as both quantities are arbitrary
here), its stored `totalPrice` and `effectiveUnitPriceOverride` are exactly the
ones established by the first call (the merge performs no price recomputation),
and every pre-existing cart line is unchanged. The `hid` hypothesis is the
separator-freeness of the menu item's id that the synthetic-id scheme relies
on, satisfied by every UUID-shaped id.
-/
theorem addToCart_merges_same_signature (m1 m2 : Option Member) (cart : List CartItem)
    (item : MenuItem) (q1 q2 : Nat) (variation : Option Variation)
    (a1 a2 : Option (List AddOn)) (p1 p2 : Option ℚ) (s1 s2 : String)
    (hid : containsSeq cartSep.data (item.id.data ++ cartSep.data.dropLast) = false)
    (hsig : normalizeAddOns a1 = normalizeAddOns a2)
    (hnew : ∀ c ∈ cart, cartLineKey c ≠ createItemKey item.id variation a1) :
    addToCart m2 (addToCart m1 cart item q1 variation a1 p1 s1) item q2 variation a2 p2 s2
      = { freshCartLine m1 item q1 variation a1 p1 s1 with quantity := q1 + q2 } :: cart
    ∧ ((addToCart m2 (addToCart m1 cart item q1 variation a1 p1 s1) item q2 variation a2 p2
          s2).countP (fun c => cartLineKey c == createItemKey item.id variation a1)) = 1
    ∧ (freshCartLine m1 item q1 variation a1 p1 s1).effectiveUnitPriceOverride = p1 := by
  have hany1 : cart.any (fun c => cartLineKey c = createItemKey item.id variation a1) = false := by
    rw [List.any_eq_false]
    intro c hc
    simpa using hnew c hc
  have h1 : addToCart m1 cart item q1 variation a1 p1 s1
      = freshCartLine m1 item q1 variation a1 p1 s1 :: cart := by
    unfold addToCart
    rw [if_neg (fun hc => Bool.false_ne_true (hany1 ▸ hc))]
  have hkey : cartLineKey (freshCartLine m1 item q1 variation a1 p1 s1)
      = createItemKey item.id variation a1 :=
    cartLineKey_freshCartLine m1 item q1 variation a1 p1 s1 hid
  have hK2 : createItemKey item.id variation a2 = createItemKey item.id variation a1 :=
    createItemKey_congr _ _ _ _ hsig.symm
  have h2 : addToCart m2 (freshCartLine m1 item q1 variation a1 p1 s1 :: cart) item q2
      variation a2 p2 s2
      = { freshCartLine m1 item q1 variation a1 p1 s1 with quantity := q1 + q2 } :: cart := by
    unfold addToCart
    rw [hK2]
    rw [if_pos (by rw [List.any_cons, hkey]; simp)]
    simp only [bumpQuantityFirst]
    rw [if_pos hkey]
    have hq : (freshCartLine m1 item q1 variation a1 p1 s1).quantity = q1 := rfl
    rw [hq]
  refine ⟨by rw [h1, h2], ?_, rfl⟩
  rw [h1, h2, List.countP_cons]
  have hkq : cartLineKey { freshCartLine m1 item q1 variation a1 p1 s1 with quantity := q1 + q2 }
      = createItemKey item.id variation a1 := hkey
  have hz : cart.countP (fun c => cartLineKey c == createItemKey item.id variation a1) = 0 := by
    rw [List.countP_eq_zero]
    intro c hc
    simpa using hnew c hc
  simp [hz, hkq]

/-- Witness for claim C1 at a concrete item added twice (quantities 2 and 3)
to the empty cart. -/
theorem addToCart_merges_same_signature_witness :
    containsSeq cartSep.data (w1item.id.data ++ cartSep.data.dropLast) = false
    ∧ normalizeAddOns none = normalizeAddOns (none : Option (List AddOn))
    ∧ (∀ c ∈ ([] : List CartItem), cartLineKey c ≠ createItemKey w1item.id none none)
    ∧ (addToCart none (addToCart none [] w1item 2 none none none "s1") w1item 3 none none none
          "s2"
        = { freshCartLine none w1item 2 none none none "s1" with quantity := 2 + 3 } :: []
      ∧ (addToCart none (addToCart none [] w1item 2 none none none "s1") w1item 3 none none none
          "s2").countP (fun c => cartLineKey c == createItemKey w1item.id none none) = 1
      ∧ (freshCartLine none w1item 2 none none none "s1").effectiveUnitPriceOverride = none) :=
  ⟨by decide, rfl, by simp,
    addToCart_merges_same_signature none none [] w1item 2 3 none none none none none "s1" "s2"
      (by decide) rfl (by simp)⟩

/--
Claim C3, evidence of the code bug: the comment over `normalizeAddOns` says
"group by ID and sum quantities", but at the input holding two add-ons of id
`a` with quantities 2 and 3 the result is a single entry of quantity 3 (each
duplicate occurrence adds one, not its quantity), the permuted input yields
quantity 4, and hence normalization is order-dependent and does not sum — the
sum 5 is never produced.
-/
theorem normalizeAddOns_dup_quantity_eval :
    normalizeAddOns (some [{ id := "a", name := "A", price := 0, quantity := some 2 },
        { id := "a", name := "A", price := 0, quantity := some 3 }])
      = [{ id := "a", name := "A", price := 0, quantity := some 3 }]
    ∧ normalizeAddOns (some [{ id := "a", name := "A", price := 0, quantity := some 3 },
        { id := "a", name := "A", price := 0, quantity := some 2 }])
      = [{ id := "a", name := "A", price := 0, quantity := some 4 }]
    ∧ normalizeAddOns (some [{ id := "a", name := "A", price := 0, quantity := some 2 },
        { id := "a", name := "A", price := 0, quantity := some 3 }])
      ≠ normalizeAddOns (some [{ id := "a", name := "A", price := 0, quantity := some 3 },
        { id := "a", name := "A", price := 0, quantity := some 2 }]) := by
  refine ⟨by decide, by decide, by decide⟩

/--
Claim C9. Cart startup deserialization never propagates an error: whenever the
`amber_cartItems` storage entry is missing, or its content fails to parse, the
cart initializes to the empty list (the parse function returning `none` models
the thrown-and-caught `JSON.parse` failure).
-/
theorem loadCartItems_missing_or_corrupt (storage : Option String)
    (parse : String → Option (List CartItem))
    (h : storage = none ∨ ∃ s, storage = some s ∧ parse s = none) :
    loadCartItems storage parse = [] := by
  rcases h with rfl | ⟨s, rfl, hp⟩
  · rfl
  · simp [loadCartItems, hp]

/-- Witness for claim C9 at a present-but-unparsable storage entry. -/
theorem loadCartItems_missing_or_corrupt_witness :
    ((some "garbage" : Option String) = none
      ∨ ∃ s, (some "garbage" : Option String) = some s
          ∧ (fun _ => (none : Option (List CartItem))) s = none)
    ∧ loadCartItems (some "garbage") (fun _ => none) = [] :=
  ⟨Or.inr ⟨"garbage", rfl, rfl⟩,
    loadCartItems_missing_or_corrupt (some "garbage") (fun _ => none)
      (Or.inr ⟨"garbage", rfl, rfl⟩)⟩

/--
Claim C10. For a cart line without `effectiveUnitPriceOverride`, the effective
unit price is exactly base price plus the member-tier variation price plus the
add-on sum; it is invariant under the item-level generic discount fields
(`isOnDiscount`, `discountPercentage`), which — like the negotiated reseller
discount, absent from the cart state altogether — reach the cart total only
when baked into an override, which replaces the computation outright.
-/
theorem getEffectiveUnitPrice_no_override (m : Option Member) (ci : CartItem)
    (h : ci.effectiveUnitPriceOverride = none) :
    getEffectiveUnitPrice m ci
      = ci.basePrice
        + (match ci.selectedVariation with
           | some v => getVariationPriceForMember v m
           | none => 0)
        + addOnsTotal ci.selectedAddOns
    ∧ (∀ d p, getEffectiveUnitPrice m
        { ci with isOnDiscount := d, discountPercentage := p } = getEffectiveUnitPrice m ci)
    ∧ (∀ q : ℚ, getEffectiveUnitPrice m { ci with effectiveUnitPriceOverride := some q } = q) := by
  refine ⟨?_, ?_, fun q => rfl⟩
  · unfold getEffectiveUnitPrice
    rw [h]
    rfl
  · intro d p
    unfold getEffectiveUnitPrice
    have h' : ({ ci with isOnDiscount := d, discountPercentage := p } :
        CartItem).effectiveUnitPriceOverride = none := h
    rw [h']
    rfl

/-- Witness for claim C10 at a concrete cart line (5 + 3 + 2·2 = 12). -/
theorem getEffectiveUnitPrice_no_override_witness :
    w10cartItem.effectiveUnitPriceOverride = none
    ∧ getEffectiveUnitPrice none w10cartItem
        = w10cartItem.basePrice
          + (match w10cartItem.selectedVariation with
             | some v => getVariationPriceForMember v none
             | none => 0)
          + addOnsTotal w10cartItem.selectedAddOns
    ∧ getEffectiveUnitPrice none w10cartItem = 12 :=
  ⟨rfl, (getEffectiveUnitPrice_no_override none w10cartItem rfl).1, by norm_num [getEffectiveUnitPrice, calculateItemPrice, w10cartItem, CartItem.toMenuItem, getVariationPriceForMember, addOnsTotal]⟩

/--
Claim C4. For a variation defining both `reseller_price` and `member_price`, a
member of type reseller always resolves to `reseller_price` — never the member
price and never the base price — both in the cart's per-member variation price
(`getVariationPriceForMember`) and in the catalog display price
(`getDiscountedPriceSync`, any cached negotiated discounts notwithstanding).
-/
theorem reseller_price_precedence (m : Member) (hm : m.user_type = "reseller")
    (v : Variation) (rp mp : ℚ) (hrp : v.reseller_price = some rp)
    (hmp : v.member_price = some mp) :
    getVariationPriceForMember v (some m) = rp
    ∧ ∀ (item : MenuItem) (md : String → Option ℚ) (bp : ℚ),
        getVariationById item (some v.id) = some v →
        getDiscountedPriceSync item (some m) md bp (some v.id) = rp := by
  constructor
  · simp [getVariationPriceForMember, hm, hrp]
  · intro item md bp hfind
    unfold getDiscountedPriceSync
    rw [hfind]
    simp [isReseller, hm, hrp]

/-- Witness for claim C4 at a concrete reseller and variation (60 over 80/100). -/
theorem reseller_price_precedence_witness :
    w4member.user_type = "reseller"
    ∧ w4variation.reseller_price = some 60
    ∧ w4variation.member_price = some 80
    ∧ getVariationPriceForMember w4variation (some w4member) = 60
    ∧ getVariationById w4item (some w4variation.id) = some w4variation
    ∧ getDiscountedPriceSync w4item (some w4member) (fun _ => none) 100
        (some w4variation.id) = 60 :=
  ⟨rfl, rfl, rfl,
    (reseller_price_precedence w4member rfl w4variation 60 80 rfl rfl).1,
    by decide,
    (reseller_price_precedence w4member rfl w4variation 60 80 rfl rfl).2 w4item
      (fun _ => none) 100 (by decide)⟩

/--
Claim C6, counterexample: switching `useMultipleAccounts` on (false to true)
does not clear the entered values — the handler clears only when the box is
unchecked — so a previously entered IGN survives the toggle, contradicting the
claim that toggling in either direction resets `customFieldValues`.
-/
theorem toggleMultipleAccounts_on_keeps_values :
    (toggleMultipleAccounts true
        { useMultipleAccounts := false,
          customFieldValues := rcdSet emptyRcd "default_ign" "Hero" }).customFieldValues
      "default_ign" = some "Hero" := rfl

/--
Claim C6, amended: the toggle always sets the flag to the checkbox state;
switching it off (to false) resets `customFieldValues` to the empty map, while
switching it on (to true) leaves the entered values unchanged.
-/
theorem toggleMultipleAccounts_amended (st : CheckoutFieldsState) (checked : Bool) :
    (toggleMultipleAccounts checked st).useMultipleAccounts = checked
    ∧ (checked = false → (toggleMultipleAccounts checked st).customFieldValues = emptyRcd)
    ∧ (checked = true → (toggleMultipleAccounts checked st).customFieldValues
        = st.customFieldValues) := by
  refine ⟨rfl, ?_, ?_⟩ <;> rintro rfl <;> rfl

/-- Witness for the amended claim C6 at a concrete state toggled off. -/
theorem toggleMultipleAccounts_amended_witness :
    (toggleMultipleAccounts false
        { useMultipleAccounts := true,
          customFieldValues := rcdSet emptyRcd "default_ign" "Hero" }).useMultipleAccounts = false
    ∧ ((false : Bool) = false →
        (toggleMultipleAccounts false
          { useMultipleAccounts := true,
            customFieldValues := rcdSet emptyRcd "default_ign" "Hero" }).customFieldValues
          = emptyRcd)
    ∧ ((false : Bool) = true →
        (toggleMultipleAccounts false
          { useMultipleAccounts := true,
            customFieldValues := rcdSet emptyRcd "default_ign" "Hero" }).customFieldValues
          = { useMultipleAccounts := true,
              customFieldValues := rcdSet emptyRcd "default_ign" "Hero" :
              CheckoutFieldsState }.customFieldValues) :=
  toggleMultipleAccounts_amended
    { useMultipleAccounts := true, customFieldValues := rcdSet emptyRcd "default_ign" "Hero" }
    false

/--
Claim C7, counterexample: `logout` emits only the storage removal — the
`memberAuthUpdate` custom event is not dispatched on logout, contradicting the
claim that every logout fires the same-tab session-change broadcast.
-/
theorem logout_no_dispatch_eval :
    AuthEvent.dispatchAuthUpdate ∉ (logout (some w4member)).2 := by decide

/--
Claim C7, amended: every successful login and every successful registration
dispatches the `memberAuthUpdate` custom event; `logout` dispatches no event —
it clears the in-memory member and the stored id directly (same-tab consumers
observe the context state update, other tabs the storage change).
-/
theorem auth_operations_broadcast (db : Option Member) (hash : String → String)
    (pw : String) (prev : Option Member) (eT uT : Bool) (iErr : Option String)
    (ins : Option Member) (prev2 prev3 : Option Member) :
    ((login db hash pw prev).1.success = true →
      AuthEvent.dispatchAuthUpdate ∈ (login db hash pw prev).2.2)
    ∧ ((register eT uT iErr ins prev2).1.success = true →
      AuthEvent.dispatchAuthUpdate ∈ (register eT uT iErr ins prev2).2.2)
    ∧ AuthEvent.dispatchAuthUpdate ∉ (logout prev3).2 := by
  refine ⟨?_, ?_, by simp [logout]⟩
  · intro hs
    cases db with
    | none => simp [login] at hs
    | some m =>
      simp only [login] at hs ⊢
      split_ifs at hs ⊢ <;> simp_all
  · intro hs
    by_cases h1 : eT = true
    · simp [register, h1] at hs
    · by_cases h2 : uT = true
      · simp [register, h1, h2] at hs
      · cases iErr with
        | some msg => simp [register, h1, h2] at hs
        | none =>
          cases ins with
          | some nm => simp [register, h1, h2]
          | none => simp [register, h1, h2] at hs

/-- Witness for the amended claim C7: a concrete successful login and a
concrete successful registration each dispatch the event; logout does not. -/
theorem auth_operations_broadcast_witness :
    (login (some w8member) (fun s => s) "pw" none).1.success = true
    ∧ AuthEvent.dispatchAuthUpdate ∈ (login (some w8member) (fun s => s) "pw" none).2.2
    ∧ (register false false none (some w8member) none).1.success = true
    ∧ AuthEvent.dispatchAuthUpdate ∈ (register false false none (some w8member) none).2.2
    ∧ AuthEvent.dispatchAuthUpdate ∉ (logout none).2 :=
  ⟨by decide,
    (auth_operations_broadcast (some w8member) (fun s => s) "pw" none false false none
      (some w8member) none none).1 (by decide),
    by decide,
    (auth_operations_broadcast (some w8member) (fun s => s) "pw" none false false none
      (some w8member) none none).2.1 (by decide),
    (auth_operations_broadcast (some w8member) (fun s => s) "pw" none false false none
      (some w8member) none none).2.2⟩

/--
Claim C8. `login` fails with the invalid-credentials error when no member row
matches the email (in particular when no matching active member exists) or when
the hash mismatches on an active member; it fails with the inactive-account
error when a member with that email exists but its status is not active; on
success it returns success with the member, sets the current member and emits
the `member_id` storage write (establishing the session).
-/
theorem login_spec (db : Option Member) (hash : String → String) (pw : String)
    (prev : Option Member) :
    (db = none →
      login db hash pw prev
        = ({ success := false, error := some "Invalid email or password" }, prev, []))
    ∧ (∀ m, db = some m → m.status ≠ "active" →
      login db hash pw prev
        = ({ success := false, error := some "Account is inactive" }, prev, []))
    ∧ (∀ m, db = some m → m.status = "active" → hash pw ≠ m.password_hash →
      login db hash pw prev
        = ({ success := false, error := some "Invalid email or password" }, prev, []))
    ∧ (∀ m, db = some m → m.status = "active" → hash pw = m.password_hash →
      login db hash pw prev
        = ({ success := true, member := some m }, some m,
            [AuthEvent.storageSet "member_id" m.id, AuthEvent.dispatchAuthUpdate])) := by
  refine ⟨?_, ?_, ?_, ?_⟩
  · rintro rfl; rfl
  · rintro m rfl hst
    simp [login, hst]
  · rintro m rfl hst hmm
    simp [login, hst, hmm]
  · rintro m rfl hst hmm
    simp [login, hst, hmm]

/-- Witness for claim C8: a concrete successful login (identity hash, matching
stored hash) and a concrete no-such-member failure. -/
theorem login_spec_witness :
    w8member.status = "active"
    ∧ (fun s => s) "pw" = w8member.password_hash
    ∧ login (some w8member) (fun s => s) "pw" none
        = ({ success := true, member := some w8member }, some w8member,
            [AuthEvent.storageSet "member_id" w8member.id, AuthEvent.dispatchAuthUpdate])
    ∧ login none (fun s => s) "pw" none
        = ({ success := false, error := some "Invalid email or password" }, none, []) :=
  ⟨rfl, rfl,
    (login_spec (some w8member) (fun s => s) "pw" none).2.2.2 w8member rfl rfl rfl,
    (login_spec none (fun s => s) "pw" none).1 rfl⟩

theorem all_required_iff (values : Rcd) (kb : CustomField → String) (cfs : List CustomField) :
    (cfs.all (fun f => !f.required || nonblankAt values (kb f))) = true
      ↔ ∀ k ∈ (cfs.filter (fun f => f.required)).map kb, nonblankAt values k = true := by
  simp only [List.all_eq_true, List.mem_map, List.mem_filter]
  constructor
  · rintro h k ⟨f, ⟨hf, hreq⟩, rfl⟩
    have hor := h f hf
    rw [Bool.or_eq_true, Bool.not_eq_true'] at hor
    rcases hor with h1 | h1
    · rw [hreq] at h1; cases h1
    · exact h1
  · intro h f hf
    rw [Bool.or_eq_true]
    by_cases hreq : f.required = true
    · exact Or.inr (h (kb f) ⟨f, ⟨hf, hreq⟩, rfl⟩)
    · rw [Bool.not_eq_true] at hreq
      exact Or.inl (by simp [hreq])

theorem all_iff_flatMap {α β : Type} (l : List α) (q : β → Bool) (keys : α → List β)
    (p : α → Bool) (h : ∀ x ∈ l, p x = true ↔ ∀ k ∈ keys x, q k = true) :
    l.all p = true ↔ ∀ k ∈ l.flatMap keys, q k = true := by
  simp only [List.all_eq_true, List.mem_flatMap]
  constructor
  · rintro hall k ⟨x, hx, hk⟩
    exact (h x hx).mp (hall x hx) k hk
  · intro hk x hx
    exact (h x hx).mpr (fun k hkk => hk k ⟨x, hx, hkk⟩)

theorem all_map_iff {α β : Type} (l : List α) (kb : α → β) (q : β → Bool) :
    l.all (fun x => q (kb x)) = true ↔ ∀ k ∈ l.map kb, q k = true := by
  simp [List.all_eq_true]

theorem validFieldsFor_iff (values : Rcd) (fi : CartItem)
    (vs : List (String × List CartItem)) :
    validFieldsFor values fi vs = true
      ↔ ∀ k ∈ keysFieldsFor fi vs, nonblankAt values k = true := by
  unfold validFieldsFor keysFieldsFor requiredKeysForItemVar
  cases hcfs : fi.customFields with
  | none => simp
  | some cfs =>
    refine all_iff_flatMap _ _ _ _ ?_
    intro vv _
    exact all_required_iff values _ cfs

theorem validGameGroup_iff (cartItems : List CartItem) (values : Rcd)
    (gv : String × List (String × List CartItem)) :
    validGameGroup cartItems values gv = true
      ↔ ∀ k ∈ keysGameGroup cartItems gv, nonblankAt values k = true := by
  unfold validGameGroup keysGameGroup
  cases hfind : cartItems.find? (fun item => getOriginalMenuItemId item.id = gv.1) with
  | none => simp
  | some fi => exact validFieldsFor_iff values fi gv.2

theorem validSingleItem_iff (values : Rcd) (item : CartItem) :
    validSingleItem values item = true
      ↔ ∀ k ∈ keysSingleItem item, nonblankAt values k = true := by
  unfold validSingleItem keysSingleItem
  cases hcfs : item.customFields with
  | none => simp
  | some cfs => exact all_required_iff values _ cfs

/-- The positive form of claim C5: the details validator accepts exactly when
every required key of the active mode holds a non-blank value. -/
theorem isDetailsValid_iff_nonblank (cartItems : List CartItem) (multi : Bool) (values : Rcd) :
    isDetailsValid cartItems multi values = true
      ↔ ∀ k ∈ requiredFieldKeys cartItems multi, nonblankAt values k = true := by
  unfold isDetailsValid requiredFieldKeys
  split_ifs with h1 h2 h3
  · exact all_iff_flatMap _ _ _ _ (fun gv _ => validGameGroup_iff cartItems values gv)
  · exact all_iff_flatMap _ _ _ _ (fun gv _ => all_map_iff gv.2 _ _)
  · simp
  · exact all_iff_flatMap _ _ _ _ (fun item _ => validSingleItem_iff values item)

/--
Claim C5. In the checkout details step, advancing to payment is blocked
(`isDetailsValid` is false, disabling the proceed button) if and only if at
least one required field key of the active mode — per applicable item in
single-account mode, per (item, variation) pair in multiple-accounts mode, or
the default IGN key(s) when no cart item defines custom fields — holds an
empty or whitespace-only (or missing) value in `customFieldValues`.
-/
theorem isDetailsValid_false_iff_blank (cartItems : List CartItem) (multi : Bool)
    (values : Rcd) :
    isDetailsValid cartItems multi values = false
      ↔ ∃ k ∈ requiredFieldKeys cartItems multi, nonblankAt values k = false := by
  constructor
  · intro hf
    have hnall : ¬ ∀ k ∈ requiredFieldKeys cartItems multi, nonblankAt values k = true := by
      intro hall
      rw [(isDetailsValid_iff_nonblank cartItems multi values).mpr hall] at hf
      cases hf
    push_neg at hnall
    obtain ⟨k, hk, hnb⟩ := hnall
    refine ⟨k, hk, ?_⟩
    cases hval : nonblankAt values k with
    | false => rfl
    | true => exact absurd hval hnb
  · rintro ⟨k, hk, hnb⟩
    cases hval : isDetailsValid cartItems multi values with
    | false => rfl
    | true =>
      have := (isDetailsValid_iff_nonblank cartItems multi values).mp hval k hk
      rw [this] at hnb
      cases hnb

theorem mergeAssign_lookup (l : List (String × String)) :
    ∀ (r : Rcd) (k v : String), mergeAssign r l k = some v →
      (∃ p ∈ l, p.2 = v) ∨ r k = some v := by
  induction l with
  | nil => intro r k v h; exact Or.inr h
  | cons p rest ih =>
    intro r k v h
    rcases ih (rcdSet r p.1 p.2) k v h with h1 | h1
    · obtain ⟨q, hq, hv⟩ := h1
      exact Or.inl ⟨q, List.mem_cons_of_mem _ hq, hv⟩
    · unfold rcdSet at h1
      by_cases hk : k = p.1
      · rw [if_pos hk] at h1
        exact Or.inl ⟨p, List.mem_cons_self _ _, Option.some.inj h1⟩
      · rw [if_neg hk] at h1
        exact Or.inr h1

theorem lookupAssign_mem (l : List (String × String)) (k v : String)
    (h : lookupAssign l k = some v) : ∃ p ∈ l, p.2 = v := by
  rcases mergeAssign_lookup l emptyRcd k v h with h1 | h1
  · exact h1
  · cases h1

theorem accountFieldEntry_mem (account : MultiAccount) (mi : CartItem) (field : CustomField)
    (q : String × String) (h : accountFieldEntry account mi field = some q) :
    ∃ p ∈ account.fields, p.2 = q.2 := by
  unfold accountFieldEntry at h
  split at h
  · rename_i v hl
    split at h
    · cases h
    · obtain ⟨p, hp, hpv⟩ := lookupAssign_mem account.fields field.label v hl
      cases h
      exact ⟨p, hp, hpv⟩
  · cases h

theorem loadAccountFields_mem (hasAny : Bool) (acc : List (String × String))
    (account : MultiAccount) (mi : CartItem) (q : String × String)
    (h : q ∈ loadAccountFields hasAny acc account mi) :
    q ∈ acc ∨ ∃ p ∈ account.fields, p.2 = q.2 := by
  unfold loadAccountFields at h
  split at h
  · rw [List.mem_append] at h
    rcases h with h | h
    · exact Or.inl h
    · rw [List.mem_filterMap] at h
      obtain ⟨field, _, hmk⟩ := h
      exact Or.inr (accountFieldEntry_mem account mi field q hmk)
  · split at h
    · rename_i v hl
      split at h
      · exact Or.inl h
      · rw [List.mem_append] at h
        rcases h with h | h
        · exact Or.inl h
        · rw [List.mem_singleton] at h
          obtain ⟨p, hp, hpv⟩ := lookupAssign_mem account.fields "IGN" v hl
          subst h
          exact Or.inr ⟨p, hp, hpv⟩
    · exact Or.inl h

theorem loadAccountStep_mem (cartItems : List CartItem) (hasAny : Bool)
    (acc : List (String × String)) (account : MultiAccount) (q : String × String)
    (h : q ∈ loadAccountStep cartItems hasAny acc account) :
    q ∈ acc ∨ ∃ p ∈ account.fields, p.2 = q.2 := by
  unfold loadAccountStep at h
  split at h
  · exact Or.inl h
  · rename_i mi hfind
    exact loadAccountFields_mem hasAny acc account mi q h

theorem loadEntryStep_mem (itemsWCF : List CartItem) (hasAny : Bool)
    (acc : List (String × String)) (kv : String × String) (q : String × String)
    (h : q ∈ loadEntryStep itemsWCF hasAny acc kv) : q ∈ acc ∨ q.2 = kv.2 := by
  revert h
  unfold loadEntryStep
  by_cases h1 : kv.1 = "Payment Method"
  · rw [if_pos h1]; intro h; exact Or.inl h
  · rw [if_neg h1]
    by_cases h2 : hasAny = true
    · rw [if_pos h2]
      intro h
      rw [List.mem_append] at h
      rcases h with h | h
      · exact Or.inl h
      · rw [List.mem_flatMap] at h
        obtain ⟨item, _, hmem⟩ := h
        rw [List.mem_filterMap] at hmem
        obtain ⟨field, _, hmk⟩ := hmem
        revert hmk
        by_cases hl : field.label = kv.1
        · rw [if_pos hl]
          intro hmk
          cases hmk
          exact Or.inr rfl
        · rw [if_neg hl]
          intro hmk
          cases hmk
    · rw [if_neg h2]
      by_cases h3 : kv.1 = "IGN"
      · rw [if_pos h3]
        intro h
        rw [List.mem_append] at h
        rcases h with h | h
        · exact Or.inl h
        · rw [List.mem_singleton] at h
          subst h
          exact Or.inr rfl
      · rw [if_neg h3]; intro h; exact Or.inl h

theorem foldl_load_mem {α : Type} (step : List (String × String) → α → List (String × String))
    (C : α → (String × String) → Prop)
    (hstep : ∀ acc a q, q ∈ step acc a → q ∈ acc ∨ C a q) :
    ∀ (l : List α) (acc : List (String × String)) (q : String × String),
      q ∈ l.foldl step acc → q ∈ acc ∨ ∃ a ∈ l, C a q := by
  intro l
  induction l with
  | nil => intro acc q hq; exact Or.inl hq
  | cons a rest ih =>
    intro acc q hq
    rcases ih (step acc a) q hq with h1 | h1
    · rcases hstep acc a q h1 with h2 | h2
      · exact Or.inl h2
      · exact Or.inr ⟨a, List.mem_cons_self _ _, h2⟩
    · obtain ⟨b, hb, hc⟩ := h1
      exact Or.inr ⟨b, List.mem_cons_of_mem _ hb, hc⟩

/-- Every value the rejected-order reload produces originates in the stored
customer info. -/
theorem loadedValuesFor_mem (cartItems : List CartItem) (ci : CustomerInfo)
    (q : String × String) (hq : q ∈ loadedValuesFor cartItems ci) :
    valueInCustomerInfo ci q.2 := by
  revert hq
  unfold loadedValuesFor
  cases hma : ci.multipleAccounts with
  | some accounts =>
    intro hq
    rcases foldl_load_mem _ (fun account qq => ∃ p ∈ account.fields, p.2 = qq.2)
      (loadAccountStep_mem cartItems (hasAnyCustomFields cartItems)) accounts [] q hq with
      h | h
    · cases h
    · obtain ⟨acc, hacc, p, hp, hpv⟩ := h
      exact Or.inr ⟨accounts, hma, acc, hacc, p, hp, hpv⟩
  | none =>
    intro hq
    rcases foldl_load_mem _ (fun kv qq => qq.2 = kv.2)
      (loadEntryStep_mem (itemsWithCustomFields cartItems) (hasAnyCustomFields cartItems))
      ci.entries [] q hq with h | h
    · cases h
    · obtain ⟨kv, hkv, hc⟩ := h
      exact Or.inl ⟨kv, hkv, hc.symm⟩

theorem applyRejectedLoad_spec (st : CheckoutOrderState) (cartItems : List CartItem)
    (ci : CustomerInfo) :
    (applyRejectedLoad st cartItems ci).useMultipleAccounts = ci.multipleAccounts.isSome
    ∧ (applyRejectedLoad st cartItems ci).customFieldValues
        = mergeAssign st.customFieldValues (loadedValuesFor cartItems ci)
    ∧ (applyRejectedLoad st cartItems ci).existingOrderId = st.existingOrderId
    ∧ (applyRejectedLoad st cartItems ci).existingOrderStatus = st.existingOrderStatus
    ∧ (applyRejectedLoad st cartItems ci).orderId = st.orderId := by
  simp only [applyRejectedLoad]
  split_ifs with hl
  · exact ⟨rfl, rfl, rfl, rfl, rfl⟩
  · refine ⟨rfl, ?_, rfl, rfl, rfl⟩
    rw [not_ne_iff.mp hl]
    rfl

/--
Claim C2, counterexample: a stored `current_order_id` resolving to an order of
status `rejected` is removed from local storage by the mount-time check (the
removal runs for approved and rejected alike), contradicting the claim that a
rejected order retains the stored id.
-/
theorem checkExistingOrder_rejected_clears_storage :
    w2order.status = "rejected"
    ∧ (checkExistingOrder w2state [] (some "o1") (fun _ => some w2order)).2 = none := by
  constructor
  · rfl
  · rfl

/--
Claim C2, amended: on mount with a stored `current_order_id` whose order
fetches successfully, an `approved` status clears the stored id and resets the
in-memory order state; a `rejected` status also clears the stored id (only the
in-memory order reference is kept), reconstructs the multiple-accounts flag
from the stored record, and pre-populates the form values by merging over the
present ones exactly the assignments loaded from the stored `customer_info` —
every loaded value originating in that record.
-/
theorem checkExistingOrder_amended (st : CheckoutOrderState) (cartItems : List CartItem)
    (oid : String) (fetch : String → Option Order) (o : Order)
    (hf : fetch oid = some o) :
    (o.status = "approved" →
      (checkExistingOrder st cartItems (some oid) fetch).2 = none
      ∧ (checkExistingOrder st cartItems (some oid) fetch).1.existingOrderId = none
      ∧ (checkExistingOrder st cartItems (some oid) fetch).1.orderId = none
      ∧ (checkExistingOrder st cartItems (some oid) fetch).1.existingOrderStatus = none)
    ∧ (o.status = "rejected" →
      (checkExistingOrder st cartItems (some oid) fetch).2 = none
      ∧ ∀ ci, o.customer_info = some ci →
          (checkExistingOrder st cartItems (some oid) fetch).1.useMultipleAccounts
            = ci.multipleAccounts.isSome
          ∧ (checkExistingOrder st cartItems (some oid) fetch).1.customFieldValues
            = mergeAssign st.customFieldValues (loadedValuesFor cartItems ci)
          ∧ ∀ q ∈ loadedValuesFor cartItems ci, valueInCustomerInfo ci q.2) := by
  constructor
  · intro hap
    have hne : o.status ≠ "rejected" := by rw [hap]; decide
    cases hci : o.customer_info with
    | none => simp [checkExistingOrder, hf, hci, hap]
    | some ci => simp [checkExistingOrder, hf, hci, hap, hne]
  · intro hrej
    have hne : o.status ≠ "approved" := by rw [hrej]; decide
    cases hci : o.customer_info with
    | none =>
      constructor
      · simp [checkExistingOrder, hf, hci, hrej, hne]
      · intro ci h'
        cases h'
    | some ci0 =>
      constructor
      · simp [checkExistingOrder, hf, hci, hrej, hne]
      · intro ci h'
        cases h'
        have hred : (checkExistingOrder st cartItems (some oid) fetch).1
            = applyRejectedLoad
                { st with
                  existingOrderId := some o.id
                  existingOrderStatus := some o.status
                  orderId := some o.id } cartItems ci0 := by
          simp [checkExistingOrder, hf, hci, hrej, hne]
        have hspec := applyRejectedLoad_spec
          { st with
            existingOrderId := some o.id
            existingOrderStatus := some o.status
            orderId := some o.id } cartItems ci0
        refine ⟨?_, ?_, ?_⟩
        · rw [hred, hspec.1]
        · rw [hred, hspec.2.1]
        · intro q hq
          exact loadedValuesFor_mem cartItems ci0 q hq

/-- Witness for the amended claim C2 at a concrete rejected order holding a
single-mode IGN entry, over the empty cart and empty prior values. -/
theorem checkExistingOrder_amended_witness :
    (fun _ : String => some w2order) "o1" = some w2order
    ∧ w2order.status = "rejected"
    ∧ w2order.customer_info = some { entries := [("IGN", "Hero")] }
    ∧ (checkExistingOrder w2state [] (some "o1") (fun _ => some w2order)).2 = none
    ∧ (checkExistingOrder w2state [] (some "o1") (fun _ => some w2order)).1.useMultipleAccounts
        = ({ entries := [("IGN", "Hero")] } : CustomerInfo).multipleAccounts.isSome
    ∧ (checkExistingOrder w2state [] (some "o1") (fun _ => some w2order)).1.customFieldValues
        = mergeAssign w2state.customFieldValues
            (loadedValuesFor [] { entries := [("IGN", "Hero")] }) :=
  ⟨rfl, rfl, rfl,
    ((checkExistingOrder_amended w2state [] "o1" (fun _ => some w2order) w2order rfl).2
      rfl).1,
    (((checkExistingOrder_amended w2state [] "o1" (fun _ => some w2order) w2order rfl).2
      rfl).2 { entries := [("IGN", "Hero")] } rfl).1,
    (((checkExistingOrder_amended w2state [] "o1" (fun _ => some w2order) w2order rfl).2
      rfl).2 { entries := [("IGN", "Hero")] } rfl).2.1⟩

end HavenGC
